import Mathlib

/-!
Verification of the madari addon/tracking core against its specification.

The C++ sources are shallowly embedded: machine doubles are modelled as
exact rationals (`Rat`), C++ `std::string` as Lean `String`, vectors as
lists, and the callback-driven fan-out as a trace over the serialized
arrival order of responses (the event loop delivers callbacks one at a
time, per the concurrency model).  `std::stoi` / `std::stoll` are modelled
with their range checks; an exception corresponds to `none`, and partial
field assignments before a thrown exception are reflected faithfully.
-/

namespace Madari

/-! ## C++ numeric string parsing (`std::stoi`, `std::stoll`) -/

/-- The six characters accepted by `isspace` in the default C locale. -/
def cppIsSpace (c : Char) : Bool :=
  c = ' ' || c = '\t' || c = '\n' || c = Char.ofNat 11 || c = Char.ofNat 12 || c = '\r'

/-- Value of a decimal digit string (most significant first). -/
def decimalValue (ds : List Char) : Nat :=
  ds.foldl (fun a c => a * 10 + (c.toNat - '0'.toNat)) 0

/-- Shared parsing core of `std::stoi` / `std::stoll`: skip leading
whitespace, read an optional sign, then at least one decimal digit.
`none` models the `std::invalid_argument` exception. -/
def cppStrtol (s : String) : Option Int :=
  let cs := s.data.dropWhile cppIsSpace
  let signed : Int × List Char :=
    match cs with
    | '-' :: t => (-1, t)
    | '+' :: t => (1, t)
    | t => (1, t)
  let ds := signed.2.takeWhile Char.isDigit
  if ds.isEmpty then none
  else some (signed.1 * Int.ofNat (decimalValue ds))

/-- `std::stoi`: `none` models both `std::invalid_argument` and the
`std::out_of_range` exception for values outside the `int` range. -/
def stoi (s : String) : Option Int :=
  match cppStrtol s with
  | none => none
  | some v => if v < -(2 ^ 31) || 2 ^ 31 - 1 < v then none else some v

/-- `std::stoll`: as `stoi` with the `long long` range. -/
def stoll (s : String) : Option Int :=
  match cppStrtol s with
  | none => none
  | some v => if v < -(2 ^ 63) || 2 ^ 63 - 1 < v then none else some v

end Madari

namespace Trakt

open Madari

/-! ## `Trakt::ContentIds` (trakt_types.hpp) and `parse_stremio_id`
(trakt_service.cpp). -/

/-- `Trakt::ContentIds`: parsed external identifiers plus optional episode
coordinates.  `season`/`episode` are plain `int`s defaulting to `0`
("unset"). -/
structure ContentIds where
  imdb : Option String := none
  tmdb : Option Int := none
  tvdb : Option Int := none
  kitsu : Option Int := none
  is_episode : Bool := false
  season : Int := 0
  episode : Int := 0
deriving Repr, DecidableEq

/-- `ContentIds::has_id`. -/
def ContentIds.has_id (c : ContentIds) : Bool :=
  c.imdb.isSome || c.tmdb.isSome || c.tvdb.isSome || c.kitsu.isSome

/-- The split-on-`:` loop of `parse_stremio_id`: empty segments are never
pushed. `current` carries the characters of the segment being built. -/
def splitColonAux : List Char → List Char → List String
  | [], current => if current.isEmpty then [] else [String.mk current]
  | c :: rest, current =>
    if c = ':' then
      if current.isEmpty then splitColonAux rest []
      else String.mk current :: splitColonAux rest []
    else splitColonAux rest (current ++ [c])

/-- Split a string on `:`, dropping empty segments. -/
def splitColon (s : String) : List String := splitColonAux s.data []

/-- The `tt…` branch of `parse_stremio_id`: the imdb field is set
unconditionally; with at least three segments the season and episode are
parsed in order, and an exception from the second `stoi` leaves the season
already assigned (C++ assignment order inside the `try` block). -/
def parseTTBranch (first : String) (rest : List String) : ContentIds :=
  let base : ContentIds := { imdb := some first }
  match rest with
  | sSeg :: eSeg :: _ =>
    (match stoi sSeg with
     | none => base
     | some sv =>
       match stoi eSeg with
       | none => { base with season := sv }
       | some ev => { base with season := sv, episode := ev, is_episode := true })
  | _ => base

/-- The `tmdb`/`tvdb`/`kitsu` branches of `parse_stremio_id`, abstracted
over which ID field the namespace sets.  A throwing `stoll` on the ID
segment leaves everything unset; with at least four segments the episode
coordinates are parsed as in the `tt` branch. -/
def parseNamespaceBranch (rest : List String) (mk : Int → ContentIds) : ContentIds :=
  match rest with
  | [] => {}
  | idSeg :: rest2 =>
    match stoll idSeg with
    | none => {}
    | some v =>
      let base := mk v
      match rest2 with
      | sSeg :: eSeg :: _ =>
        (match stoi sSeg with
         | none => base
         | some sv =>
           match stoi eSeg with
           | none => { base with season := sv }
           | some ev => { base with season := sv, episode := ev, is_episode := true })
      | _ => base

/-- `Trakt::parse_stremio_id` (trakt_service.cpp): split on `:` dropping
empty segments, then dispatch on the first segment. -/
def parse_stremio_id (s : String) : ContentIds :=
  if s.isEmpty then {}
  else
    match splitColon s with
    | [] => {}
    | first :: rest =>
      if first.take 2 = "tt" then parseTTBranch first rest
      else if first = "tmdb" then parseNamespaceBranch rest (fun v => { tmdb := some v })
      else if first = "tvdb" then parseNamespaceBranch rest (fun v => { tvdb := some v })
      else if first = "kitsu" then parseNamespaceBranch rest (fun v => { kitsu := some v })
      else {}

end Trakt

namespace Madari

open Trakt

/-! ## Scrobble lifecycle (window.cpp: `trigger_scrobble` and the
`MPV_EVENT_FILE_LOADED` handler of `on_player_mpv_events`).

The window's fields relevant to scrobbling are collected in `PlayerState`;
`trakt_ok` abbreviates the conjunction "service present, authenticated and
`sync_progress` enabled" tested at the top of `trigger_scrobble`. -/

inductive ScrobbleAction
  | start
  | pause
  | stop
deriving Repr, DecidableEq

structure PlayerState where
  current_video_id : Option String
  current_meta_type : Option String
  trakt_ok : Bool
  scrobble_started : Bool
  last_scrobble_time : Int
  player_position : Rat
  player_duration : Rat
deriving Repr, DecidableEq

/-- The outbound scrobble request issued by `trigger_scrobble` (the
`scrobble_start` / `scrobble_pause` / `scrobble_stop` call). -/
structure ScrobbleRequest where
  action : ScrobbleAction
  ids : ContentIds
  content_type : String
  progress_pct : Rat
deriving Repr, DecidableEq

/-- `trigger_scrobble` (window.cpp): returns the updated window state and
the outbound request, if one was issued.  Mirrors the C++ control flow:
video-context check, Trakt check, last-call debounce for non-stop actions,
`last_scrobble_time` update, ID parse, progress clamp, dispatch. -/
def trigger_scrobble (s : PlayerState) (action : ScrobbleAction) (now : Int) :
    PlayerState × Option ScrobbleRequest :=
  match s.current_video_id, s.current_meta_type with
  | some vid, some mt =>
    if !s.trakt_ok then (s, none)
    else if action ≠ ScrobbleAction.stop ∧ now - s.last_scrobble_time < 5 then (s, none)
    else
      let s1 := { s with last_scrobble_time := now }
      let ids := parse_stremio_id vid
      if !ids.has_id then (s1, none)
      else
        let pr : Rat :=
          if 0 < s.player_duration then
            min 100 (max 0 (s.player_position / s.player_duration * 100))
          else 0
        (s1, some { action := action, ids := ids, content_type := mt, progress_pct := pr })
  | _, _ => (s, none)

/-- The `MPV_EVENT_FILE_LOADED` case of `on_player_mpv_events`
(window.cpp): when the scrobble has not started, `scrobble_started` is set
to `TRUE` and then `trigger_scrobble(self, "start")` runs. -/
def on_file_loaded (s : PlayerState) (now : Int) : PlayerState × Option ScrobbleRequest :=
  if s.scrobble_started then (s, none)
  else trigger_scrobble { s with scrobble_started := true } ScrobbleAction.start now

/-! ## Fan-out aggregation (stremio_addon_service.cpp:
`fetch_all_streams`, `fetch_all_subtitles`).

Per the single-threaded event-loop model, the per-response lambdas run
serialized in arrival order; `fanOutRun` replays them over the list of
responses (one entry per matching provider, `none` for a transport/parse
error).  The shared `pending` counter starts at the provider count. -/

inductive FanEvent
  | item
  | done
deriving Repr, DecidableEq

/-- The body of one response lambda, before the counter update: the
per-provider callback fires iff the response is present and its
collection non-empty. -/
def responseEvents {α : Type} : Option (List α) → List FanEvent
  | some items => if items.isEmpty then [] else [FanEvent.item]
  | none => []

/-- One response-callback step per list entry: the per-provider callback
per `responseEvents`, then decrement `pending` and invoke the completion
callback at zero. -/
def fanOutRun {α : Type} (pending : Nat) : List (Option (List α)) → List FanEvent
  | [] => []
  | r :: rest =>
    responseEvents r ++
    (if pending - 1 = 0 then [FanEvent.done] else []) ++
    fanOutRun (pending - 1) rest

/-- `fetch_all_streams` / `fetch_all_subtitles` callback trace: with no
matching providers the completion callback is invoked immediately;
otherwise the counter is initialized to the provider count and each
response is processed in arrival order. -/
def fanOutTrace {α : Type} (resps : List (Option (List α))) : List FanEvent :=
  if resps.isEmpty then [FanEvent.done]
  else fanOutRun resps.length resps

end Madari

namespace Stremio

/-! ## Addon manifests and the capability resolver
(stremio_types.hpp, stremio_addon_service.cpp). -/

/-- Character-list core of `beginsWith`. -/
def charsBeginWith : List Char → List Char → Bool
  | _, [] => true
  | [], _ :: _ => false
  | c :: cs, d :: ds => c = d && charsBeginWith cs ds

/-- `id.rfind(p, 0) == 0` in the C++ sources: `id` begins with `p`. -/
def beginsWith (s p : String) : Bool := charsBeginWith s.data p.data

/-- `Stremio::ResourceDefinition`. -/
structure ResourceDefinition where
  name : String
  types : List String
  id_prefixes : List String
deriving Repr, DecidableEq

/-- `Stremio::Manifest`.  Fields not consulted by the resolver (logo,
catalogs, behavior hints, …) are omitted from the embedding. -/
structure Manifest where
  id : String
  version : String
  name : String
  types : List String
  resources : List ResourceDefinition
  id_prefixes : List String
  transport_url : String
deriving Repr, DecidableEq

/-- `Stremio::InstalledAddon`. -/
structure InstalledAddon where
  manifest : Manifest
  enabled : Bool
  order : Int
  installed_at : String
deriving Repr, DecidableEq

/-- The inner resource loop of `AddonService::get_addons_for_resource`,
carrying the mutable `type_matches` / `id_matches` flags.  Returns whether
the addon is pushed (the loop breaks at the first fully matching resource
definition).  Note that when `id` is non-empty and both the resource-level
and the manifest-level prefix lists are empty, `id_matches` is left at the
value it had from the previous iteration. -/
def resourceLoop (resource ty id : String) (m : Manifest) :
    List ResourceDefinition → Bool → Bool → Bool
  | [], _, _ => false
  | res :: rest, type_matches, id_matches =>
    if res.name ≠ resource then resourceLoop resource ty id m rest type_matches id_matches
    else
      let type_matches' :=
        if !res.types.isEmpty then res.types.contains ty
        else if !m.types.isEmpty then m.types.contains ty
        else true
      let id_matches' :=
        if id.isEmpty then id_matches
        else if !res.id_prefixes.isEmpty then res.id_prefixes.any (fun p => beginsWith id p)
        else if !m.id_prefixes.isEmpty then m.id_prefixes.any (fun p => beginsWith id p)
        else id_matches
      if type_matches' && id_matches' then true
      else resourceLoop resource ty id m rest type_matches' id_matches'

/-- Whether `get_addons_for_resource` pushes the addon: the per-addon body
with the flag initializations of the C++ code. -/
def addonMatches (addon : InstalledAddon) (resource ty id : String) : Bool :=
  addon.enabled &&
    resourceLoop resource ty id addon.manifest addon.manifest.resources
      addon.manifest.types.isEmpty
      (addon.manifest.id_prefixes.isEmpty || id.isEmpty)

/-- `AddonService::get_addons_for_resource`: filter the installed list in
order. -/
def get_addons_for_resource (installed_addons : List InstalledAddon)
    (resource ty id : String) : List InstalledAddon :=
  installed_addons.filter (fun a => addonMatches a resource ty id)

/-! The specification's own three-step matching rule (§4.2), written from
the spec's words for comparison with the code. -/

/-- Modelled from the spec: the §4.2 type-match rule for one resource
definition. -/
def specTypeMatch (m : Manifest) (res : ResourceDefinition) (ty : String) : Bool :=
  if !res.types.isEmpty then res.types.contains ty
  else if !m.types.isEmpty then m.types.contains ty
  else true

/-- Modelled from the spec: the §4.2 identifier-match rule for one
resource definition. -/
def specIdMatch (m : Manifest) (res : ResourceDefinition) (id : String) : Bool :=
  if id.isEmpty then true
  else if !res.id_prefixes.isEmpty then res.id_prefixes.any (fun p => beginsWith id p)
  else if !m.id_prefixes.isEmpty then m.id_prefixes.any (fun p => beginsWith id p)
  else true

/-- The update applied to the loop's `id_matches` flag at a resource
definition whose name matches, as a function of the incoming flag `i`
(the C++ leaves the flag untouched when `id` is empty or when both
prefix lists are empty). -/
def idMatchUpdate (m : Manifest) (res : ResourceDefinition) (id : String) (i : Bool) : Bool :=
  if id.isEmpty then i
  else if !res.id_prefixes.isEmpty then res.id_prefixes.any (fun p => beginsWith id p)
  else if !m.id_prefixes.isEmpty then m.id_prefixes.any (fun p => beginsWith id p)
  else i

/-- Modelled from the spec: `providersFor` includes a provider iff it is
enabled and some resource definition with the requested name passes both
the type-match and the identifier-match, each evaluated per resource
definition. -/
def specEligible (addon : InstalledAddon) (resource ty id : String) : Bool :=
  addon.enabled &&
    addon.manifest.resources.any (fun res =>
      res.name == resource && specTypeMatch addon.manifest res ty &&
        specIdMatch addon.manifest res id)

end Stremio

namespace Madari

/-! ## Watch history (watch_history.hpp / watch_history.cpp).

`double` fields are modelled as `Rat`; the C++ literals `0.9` and `30`
are the rationals `9/10` and `30`. -/

/-- `Madari::WatchHistoryEntry`. -/
structure WatchHistoryEntry where
  meta_id : String
  meta_type : String
  video_id : String
  title : String
  poster_url : String
  series_title : Option String := none
  season : Option Int := none
  episode : Option Int := none
  position : Rat
  duration : Rat
  last_watched : Int
  binge_group : Option String := none
deriving Repr, DecidableEq

/-- `WatchHistoryEntry::get_progress`: `0` for non-positive durations,
else `min(1, position / duration)` (no lower clamp in the source). -/
def WatchHistoryEntry.get_progress (e : WatchHistoryEntry) : Rat :=
  if e.duration ≤ 0 then 0 else min 1 (e.position / e.duration)

/-- `WatchHistoryEntry::is_finished`. -/
def WatchHistoryEntry.is_finished (e : WatchHistoryEntry) : Bool :=
  9 / 10 ≤ e.get_progress

/-- `WatchHistoryEntry::is_resumable`. -/
def WatchHistoryEntry.is_resumable (e : WatchHistoryEntry) : Bool :=
  30 < e.position && !e.is_finished

/-- Modelled from the spec: `progress = clamp(position/duration, 0, 1)`
(§3), for comparison with `get_progress`. -/
def specClampProgress (e : WatchHistoryEntry) : Rat :=
  max 0 (min 1 (e.position / e.duration))

/-- `WatchHistoryService::find_entry_index`: first index whose
`(meta_id, video_id)` pair matches, `none` for the C++ `-1`. -/
def find_entry_index (history : List WatchHistoryEntry) (mid vid : String) : Option Nat :=
  history.findIdx? (fun e => e.meta_id == mid && e.video_id == vid)

/-- `WatchHistoryService::update_progress` on the in-memory entry list:
replace-and-move-to-front for an existing key, else insert at the front
and resize to 500 when the cap is exceeded.  `now` is `std::time(nullptr)`. -/
def update_progress (history : List WatchHistoryEntry) (entry : WatchHistoryEntry)
    (now : Int) : List WatchHistoryEntry :=
  match find_entry_index history entry.meta_id entry.video_id with
  | some idx =>
    let updated := { entry with last_watched := now }
    let h := history.set idx updated
    if 0 < idx then updated :: h.eraseIdx idx else h
  | none =>
    let h := { entry with last_watched := now } :: history
    if 500 < h.length then h.take 500 else h

end Madari

namespace Trakt

/-! ## Trakt playback records (trakt_types.hpp) used by the
continue-watching merge. -/

/-- `Trakt::Ids`. -/
structure Ids where
  trakt : Option Int := none
  slug : Option String := none
  imdb : Option String := none
  tmdb : Option Int := none
  tvdb : Option Int := none
deriving Repr, DecidableEq

/-- `Trakt::Movie` (fields not read by the merge are omitted). -/
structure Movie where
  title : String
  year : Option Int := none
  ids : Ids
deriving Repr, DecidableEq

/-- `Trakt::Show` (fields not read by the merge are omitted); named
`TvShow` here. -/
structure TvShow where
  title : String
  year : Option Int := none
  ids : Ids
deriving Repr, DecidableEq

/-- `Trakt::Episode` (fields not read by the merge are omitted). -/
structure Episode where
  season : Int
  number : Int
  title : String
  ids : Ids
deriving Repr, DecidableEq

/-- `Trakt::PlaybackProgress`.  The C++ field `show` is named `tv_show`
here (`show` is a Lean keyword). -/
structure PlaybackProgress where
  id : Int
  progress : Rat
  movie : Option Movie := none
  tv_show : Option TvShow := none
  episode : Option Episode := none
  paused_at : String
  type : String
deriving Repr, DecidableEq

end Trakt

namespace Madari

open Trakt

/-! ## Continue-watching merge (window.cpp:
`trakt_playback_to_entry`, `create_continue_watching_section`).

`timeParse` abstracts `parse_iso8601` (strptime-based, returns `0` when
the timestamp does not parse); `now` is `std::time(nullptr)`. -/

/-- `trakt_playback_to_entry` (window.cpp): convert a remote playback
record to a history entry on the normalized `duration = 100` scale, with
the `paused_at` timestamp falling back to `now` when it parses to `0`. -/
def trakt_playback_to_entry (timeParse : String → Int) (now : Int)
    (playback : PlaybackProgress) : WatchHistoryEntry :=
  let t := timeParse playback.paused_at
  let base : WatchHistoryEntry :=
    { meta_id := "", meta_type := "", video_id := "", title := "", poster_url := "",
      position := playback.progress, duration := 100,
      last_watched := if t = 0 then now else t }
  match playback.type == "movie", playback.movie with
  | true, some movie =>
    { base with
      meta_id := movie.ids.imdb.getD "",
      video_id := movie.ids.imdb.getD "",
      meta_type := "movie",
      title := movie.title }
  | _, _ =>
    match playback.type == "episode", playback.episode with
    | true, some ep =>
      let mid := match playback.tv_show with
        | some sh => sh.ids.imdb.getD ""
        | none => ""
      { base with
        meta_type := "series",
        title := ep.title,
        season := some ep.season,
        episode := some ep.number,
        meta_id := mid,
        series_title := match playback.tv_show with
          | some sh => some sh.title
          | none => none,
        video_id := mid ++ ":" ++ toString ep.season ++ ":" ++ toString ep.number }
    | _, _ => base

/-- The remote half of the merge loop: skip a converted entry whose
`video_id` is already in `existing_ids`, otherwise append it and record
its `video_id` (the C++ `std::set` is modelled by membership in a list). -/
def mergeRemote (existing_ids : List String) :
    List WatchHistoryEntry → List WatchHistoryEntry
  | [] => []
  | e :: rest =>
    if existing_ids.contains e.video_id then mergeRemote existing_ids rest
    else e :: mergeRemote (e.video_id :: existing_ids) rest

/-- One step of the `std::sort` result, by `last_watched` descending. -/
def insertByLastWatched (e : WatchHistoryEntry) :
    List WatchHistoryEntry → List WatchHistoryEntry
  | [] => [e]
  | x :: xs =>
    if x.last_watched < e.last_watched then e :: x :: xs
    else x :: insertByLastWatched e xs

/-- The merge's `std::sort(..., a.last_watched > b.last_watched)`:
a sort of the merged list by `last_watched`, most recent first. -/
def sortByLastWatchedDesc : List WatchHistoryEntry → List WatchHistoryEntry
  | [] => []
  | e :: rest => insertByLastWatched e (sortByLastWatchedDesc rest)

/-- The merge inside `create_continue_watching_section`'s `get_playback`
callback: local items first, remote records deduplicated against the
`video_id`s seen so far, then sorted by `last_watched` descending and
truncated to the 15 displayed items.  `remote = none` covers the error
and missing-response paths, where no remote entry is added. -/
def continue_watching_merge (local_items : List WatchHistoryEntry)
    (remote : Option (List PlaybackProgress)) (timeParse : String → Int)
    (now : Int) : List WatchHistoryEntry :=
  let merged := local_items ++
    (match remote with
     | none => []
     | some pbs =>
       mergeRemote (local_items.map (fun e => e.video_id))
         (pbs.map (trakt_playback_to_entry timeParse now)))
  (sortByLastWatchedDesc merged).take 15

end Madari

namespace Madari

/-! ## Concrete instances used by counterexamples and witnesses. -/

/-- A history entry with a negative stored position. -/
def negEntry : WatchHistoryEntry :=
  { meta_id := "tt1", meta_type := "movie", video_id := "tt1", title := "T",
    poster_url := "", position := -10, duration := 100, last_watched := 0 }

/-- A mid-progress resumable entry. -/
def midEntry : WatchHistoryEntry :=
  { meta_id := "tt1", meta_type := "movie", video_id := "tt1", title := "T",
    poster_url := "", position := 50, duration := 100, last_watched := 4 }

/-- A resumable entry sharing `midEntry`'s `video_id` under another
`meta_id`. -/
def midEntry2 : WatchHistoryEntry :=
  { meta_id := "m2", meta_type := "movie", video_id := "tt1", title := "U",
    poster_url := "", position := 40, duration := 100, last_watched := 2 }

end Madari


namespace Madari

/-- An entry with non-positive duration. -/
def zeroDurEntry : WatchHistoryEntry := { midEntry with duration := 0 }

/-- A manifest declaring the `stream` resource twice: first with a
restrictive prefix list, then with no lists of its own. -/
def dupManifest : Stremio.Manifest :=
  { id := "org.example.dup", version := "1.0.0", name := "Dup", types := [],
    resources := [{ name := "stream", types := [], id_prefixes := ["xx"] },
                  { name := "stream", types := [], id_prefixes := [] }],
    id_prefixes := [], transport_url := "https://dup.example.org" }

/-- `dupManifest`, installed and enabled. -/
def dupAddon : Stremio.InstalledAddon :=
  { manifest := dupManifest, enabled := true, order := 0, installed_at := "2024-01-01" }

/-- A manifest declaring the `stream` resource once. -/
def plainManifest : Stremio.Manifest :=
  { id := "org.example.plain", version := "1.0.0", name := "Plain", types := ["movie"],
    resources := [{ name := "stream", types := [], id_prefixes := ["tt"] }],
    id_prefixes := [], transport_url := "https://plain.example.org" }

/-- `plainManifest`, installed and enabled. -/
def plainAddon : Stremio.InstalledAddon :=
  { manifest := plainManifest, enabled := true, order := 0, installed_at := "2024-01-01" }

/-- A remote in-progress movie record. -/
def remoteMovie : Trakt.PlaybackProgress :=
  { id := 1, progress := 40,
    movie := some { title := "M", ids := { imdb := some "tt9" } },
    paused_at := "", type := "movie" }

/-- A playback session with full Trakt context and a parseable episode
identifier, debounce window long expired. -/
def readyState : PlayerState :=
  { current_video_id := some "tt1:2:5", current_meta_type := some "series",
    trakt_ok := true, scrobble_started := false, last_scrobble_time := 0,
    player_position := 10, player_duration := 100 }

/-- `readyState` with an identifier that resolves to no external ID. -/
def bogusState : PlayerState := { readyState with current_video_id := some "bogus" }

/-! ## Theorems -/

/-- C10: for every history entry with `duration ≤ 0`, `get_progress`
returns `0` via the guard (no division), and `is_finished` is
consequently false; the derived functions are total. -/
theorem get_progress_nonpositive_duration (e : WatchHistoryEntry)
    (h : e.duration ≤ 0) : e.get_progress = 0 ∧ e.is_finished = false := by
  have hp : e.get_progress = 0 := by
    unfold WatchHistoryEntry.get_progress
    simp [h]
  refine ⟨hp, ?_⟩
  unfold WatchHistoryEntry.is_finished
  rw [hp]
  norm_num

/-- C10 witness: a concrete entry with `duration = 0`. -/
theorem get_progress_nonpositive_duration_witness :
    zeroDurEntry.get_progress = 0 ∧ zeroDurEntry.is_finished = false :=
  get_progress_nonpositive_duration zeroDurEntry (by norm_num [zeroDurEntry, midEntry])

/-- C8 counterexample: `get_progress` has no lower clamp, so for a
negative stored position it returns a negative progress where
`clamp(position/duration, 0, 1)` is `0`; the claimed equality fails. -/
theorem get_progress_clamp_counterexample :
    negEntry.get_progress = -1 / 10 ∧ specClampProgress negEntry = 0 ∧
      negEntry.get_progress ≠ specClampProgress negEntry := by
  refine ⟨?_, ?_, ?_⟩ <;>
    norm_num [WatchHistoryEntry.get_progress, specClampProgress, negEntry, min_def, max_def]

/-- C8 amended: `progress` equals `clamp(position/duration, 0, 1)` for
every entry with a non-negative position (the code clamps only from
above); `is_finished` iff progress ≥ 0.9; `is_resumable` iff position
exceeds 30 seconds and the entry is not finished. -/
theorem watch_entry_derived_spec :
    (∀ e : WatchHistoryEntry, 0 ≤ e.position → e.get_progress = specClampProgress e) ∧
    (∀ e : WatchHistoryEntry, e.is_finished = true ↔ 9 / 10 ≤ e.get_progress) ∧
    (∀ e : WatchHistoryEntry,
      e.is_resumable = true ↔ 30 < e.position ∧ e.get_progress < 9 / 10) := by
  refine ⟨?_, ?_, ?_⟩
  · intro e hpos
    unfold WatchHistoryEntry.get_progress specClampProgress
    by_cases hd : e.duration ≤ 0
    · have hx : e.position / e.duration ≤ 0 := by
        rcases lt_or_eq_of_le hd with hlt | heq
        · exact div_nonpos_of_nonneg_of_nonpos hpos hd
        · rw [heq, div_zero]
      have hmin : min 1 (e.position / e.duration) = e.position / e.duration :=
        min_eq_right (le_trans hx (by norm_num))
      simp [hd, hmin, max_eq_left hx]
    · push_neg at hd
      have hx : 0 ≤ e.position / e.duration := div_nonneg hpos (le_of_lt hd)
      have hmin : 0 ≤ min 1 (e.position / e.duration) := le_min (by norm_num) hx
      simp [not_le.mpr hd, max_eq_right hmin]
  · intro e
    unfold WatchHistoryEntry.is_finished
    simp
  · intro e
    unfold WatchHistoryEntry.is_resumable WatchHistoryEntry.is_finished
    simp [not_le]

/-- C8 amended witness: a concrete mid-progress entry. -/
theorem watch_entry_derived_spec_witness :
    (midEntry.get_progress = specClampProgress midEntry) ∧
      (midEntry.is_finished = true ↔ 9 / 10 ≤ midEntry.get_progress) ∧
      (midEntry.is_resumable = true ↔ 30 < midEntry.position ∧
        midEntry.get_progress < 9 / 10) :=
  ⟨watch_entry_derived_spec.1 midEntry (by norm_num [midEntry]),
   watch_entry_derived_spec.2.1 midEntry,
   watch_entry_derived_spec.2.2 midEntry⟩

end Madari

namespace Madari

/-- A provider response that triggers the per-provider callback: present
with a non-empty collection. -/
def isNonemptyResponse {α : Type} : Option (List α) → Bool
  | some items => !items.isEmpty
  | none => false

theorem responseEvents_eq_if {α : Type} (r : Option (List α)) :
    responseEvents r = if isNonemptyResponse r then [FanEvent.item] else [] := by
  cases r with
  | none => rfl
  | some items => cases items <;> rfl

theorem fanOutRun_spec {α : Type} (l : List (Option (List α))) (h : l ≠ []) :
    (fanOutRun l.length l).count FanEvent.item = l.countP isNonemptyResponse ∧
      (fanOutRun l.length l).count FanEvent.done = 1 ∧
      (fanOutRun l.length l).getLast? = some FanEvent.done := by
  induction l with
  | nil => exact absurd rfl h
  | cons r rest ih =>
    simp only [List.length_cons, fanOutRun, responseEvents_eq_if, Nat.add_sub_cancel]
    rcases eq_or_ne rest [] with hrest | hrest
    · subst hrest
      simp only [List.length_nil, if_pos rfl]
      refine ⟨?_, ?_, ?_⟩
      · cases hr : isNonemptyResponse r <;>
          simp [List.countP_cons, hr, List.count_append, List.count_cons, List.count_nil,
            fanOutRun]
      · cases hr : isNonemptyResponse r <;>
          simp [hr, List.count_append, List.count_cons, List.count_nil, fanOutRun]
      · cases hr : isNonemptyResponse r <;> simp [hr, List.getLast?_concat, fanOutRun]
    · have hlen : rest.length ≠ 0 := by
        simpa [List.length_eq_zero] using hrest
      obtain ⟨ihItem, ihDone, ihLast⟩ := ih hrest
      rw [if_neg hlen]
      have htail : fanOutRun rest.length rest ≠ [] := by
        intro he
        rw [he] at ihDone
        simp at ihDone
      refine ⟨?_, ?_, ?_⟩
      · cases hr : isNonemptyResponse r <;>
          simp [hr, List.count_append, ihItem, List.countP_cons]
      · cases hr : isNonemptyResponse r <;>
          simp [hr, List.count_append, ihDone]
      · rw [List.append_assoc, List.getLast?_append_of_ne_nil _ (by simp [htail]),
          List.getLast?_append_of_ne_nil _ htail, ihLast]

/-- C2: fan-out aggregation over the serialized response trace.  For any
list of per-provider responses (one per matching provider, in arrival
order): the per-provider callback fires exactly once per non-empty
response collection, the completion callback fires exactly once and is
the last event, and with zero matching providers the trace is exactly the
immediate completion callback. -/
theorem fanOutTrace_spec {α : Type} (resps : List (Option (List α))) :
    (fanOutTrace resps).count FanEvent.item = resps.countP isNonemptyResponse ∧
      (fanOutTrace resps).count FanEvent.done = 1 ∧
      (fanOutTrace resps).getLast? = some FanEvent.done ∧
      (resps = [] → fanOutTrace resps = [FanEvent.done]) := by
  rcases eq_or_ne resps [] with h | h
  · subst h
    refine ⟨?_, ?_, ?_, fun _ => rfl⟩ <;> simp [fanOutTrace]
  · obtain ⟨h1, h2, h3⟩ := fanOutRun_spec resps h
    have hne : resps.isEmpty = false := by
      cases resps with
      | nil => exact absurd rfl h
      | cons a l => rfl
    unfold fanOutTrace
    rw [hne]
    exact ⟨h1, h2, h3, fun he => absurd he h⟩

/-- C2 witness: four providers, two with non-empty results, one empty,
one failed. -/
theorem fanOutTrace_spec_witness :
    (fanOutTrace [some [1, 2], none, some ([] : List Nat), some [3]]).count FanEvent.item = 2 ∧
      (fanOutTrace [some [1, 2], none, some ([] : List Nat), some [3]]).count
        FanEvent.done = 1 ∧
      (fanOutTrace [some [1, 2], none, some ([] : List Nat),
        some [3]]).getLast? = some FanEvent.done ∧
      fanOutTrace ([] : List (Option (List Nat))) = [FanEvent.done] := by
  obtain ⟨h1, h2, h3, _⟩ := fanOutTrace_spec [some [1, 2], none, some ([] : List Nat), some [3]]
  obtain ⟨_, _, _, h4⟩ := fanOutTrace_spec ([] : List (Option (List Nat)))
  exact ⟨by rw [h1]; decide, h2, h3, h4 rfl⟩

end Madari

namespace Madari

theorem trigger_scrobble_debounced (s : PlayerState) (a : ScrobbleAction) (now : Int)
    (ha : a ≠ ScrobbleAction.stop) (hlt : now - s.last_scrobble_time < 5) :
    trigger_scrobble s a now = (s, none) := by
  unfold trigger_scrobble
  cases hv : s.current_video_id with
  | none => rfl
  | some vid =>
    cases hm : s.current_meta_type with
    | none => rfl
    | some mt =>
      by_cases ht : s.trakt_ok
      · simp [ht, if_pos (And.intro ha hlt)]
      · simp [ht]

theorem trigger_scrobble_no_id (s : PlayerState) (a : ScrobbleAction) (now : Int)
    (vid : String) (hv : s.current_video_id = some vid)
    (hid : (Trakt.parse_stremio_id vid).has_id = false) :
    (trigger_scrobble s a now).2 = none := by
  unfold trigger_scrobble
  rw [hv]
  cases hm : s.current_meta_type with
  | none => rfl
  | some mt =>
    by_cases ht : s.trakt_ok
    · by_cases hd : a ≠ ScrobbleAction.stop ∧ now - s.last_scrobble_time < 5
      · simp [ht, if_pos hd]
      · simp [ht, if_neg hd, hid]
    · simp [ht]

theorem trigger_scrobble_sends (s : PlayerState) (a : ScrobbleAction) (now : Int)
    (vid mt : String) (hv : s.current_video_id = some vid)
    (hm : s.current_meta_type = some mt) (ht : s.trakt_ok = true)
    (hid : (Trakt.parse_stremio_id vid).has_id = true)
    (hd : a = ScrobbleAction.stop ∨ 5 ≤ now - s.last_scrobble_time) :
    ∃ req, trigger_scrobble s a now = ({ s with last_scrobble_time := now }, some req) ∧
      req.action = a := by
  unfold trigger_scrobble
  rw [hv, hm]
  have hcond : ¬(a ≠ ScrobbleAction.stop ∧ now - s.last_scrobble_time < 5) := by
    rcases hd with hstop | hge
    · exact fun hc => hc.1 hstop
    · exact fun hc => absurd hc.2 (not_lt.mpr hge)
  simp only [ht, Bool.not_true, Bool.false_eq_true, if_false, if_neg hcond, hid,
    Bool.not_true, Bool.false_eq_true, if_false]
  exact ⟨_, rfl, rfl⟩

theorem trigger_scrobble_keeps_started (s : PlayerState) (a : ScrobbleAction) (now : Int) :
    (trigger_scrobble s a now).1.scrobble_started = s.scrobble_started := by
  unfold trigger_scrobble
  cases hv : s.current_video_id with
  | none => rfl
  | some vid =>
    cases hm : s.current_meta_type with
    | none => rfl
    | some mt =>
      by_cases ht : s.trakt_ok
      · by_cases hd : a ≠ ScrobbleAction.stop ∧ now - s.last_scrobble_time < 5
        · simp [ht, if_pos hd]
        · by_cases hid : (Trakt.parse_stremio_id vid).has_id
          · simp [ht, if_neg hd, hid]
          · simp [ht, if_neg hd, hid]
      · simp [ht]

end Madari

namespace Madari

/-- C5 counterexample: on file-loaded with an unresolvable video ID, the
code sets `scrobble_started` to true *before* attempting the scrobble, so
the flag does not remain false even though no request is sent. -/
theorem on_file_loaded_noid_counterexample :
    (on_file_loaded bogusState 100).1.scrobble_started = true ∧
      (on_file_loaded bogusState 100).2 = none := by
  constructor <;> decide

/-- C5 amended: on the file-loaded transition while `scrobble_started` is
false, the flag is set to true unconditionally; if the parsed video ID
resolves no external ID, no request is sent (but the flag is still true);
when the context, Trakt and debounce checks pass and an ID resolves, a
start request is sent. -/
theorem on_file_loaded_spec :
    (∀ (s : PlayerState) (now : Int), s.scrobble_started = false →
      (on_file_loaded s now).1.scrobble_started = true) ∧
    (∀ (s : PlayerState) (now : Int) (vid : String), s.scrobble_started = false →
      s.current_video_id = some vid → (Trakt.parse_stremio_id vid).has_id = false →
      (on_file_loaded s now).2 = none) ∧
    (∀ (s : PlayerState) (now : Int) (vid mt : String), s.scrobble_started = false →
      s.current_video_id = some vid → s.current_meta_type = some mt →
      s.trakt_ok = true → (Trakt.parse_stremio_id vid).has_id = true →
      5 ≤ now - s.last_scrobble_time →
      ∃ req, (on_file_loaded s now).2 = some req ∧
        req.action = ScrobbleAction.start) := by
  refine ⟨?_, ?_, ?_⟩
  · intro s now h
    unfold on_file_loaded
    rw [if_neg (by simp [h])]
    rw [trigger_scrobble_keeps_started]
  · intro s now vid h hv hid
    unfold on_file_loaded
    rw [if_neg (by simp [h])]
    exact trigger_scrobble_no_id _ _ _ vid hv hid
  · intro s now vid mt h hv hm ht hid hge
    unfold on_file_loaded
    rw [if_neg (by simp [h])]
    obtain ⟨req, heq, hact⟩ :=
      trigger_scrobble_sends { s with scrobble_started := true } ScrobbleAction.start now
        vid mt hv hm ht hid (Or.inr hge)
    exact ⟨req, by rw [heq], hact⟩

/-- C5 amended witness: a ready session with a parseable episode ID. -/
theorem on_file_loaded_spec_witness :
    (on_file_loaded readyState 100).1.scrobble_started = true ∧
      (on_file_loaded bogusState 100).2 = none ∧
      ∃ req, (on_file_loaded readyState 100).2 = some req ∧
        req.action = ScrobbleAction.start :=
  ⟨on_file_loaded_spec.1 readyState 100 rfl,
   on_file_loaded_spec.2.1 bogusState 100 "bogus" rfl rfl (by decide),
   on_file_loaded_spec.2.2 readyState 100 "tt1:2:5" "series" rfl rfl rfl rfl
     (by decide) (by decide)⟩

/-- C6: the last-call debounce.  A non-stop action within 5 seconds of
`last_scrobble_time` is suppressed with the state unchanged; under a valid
context, two pause actions 1 second apart yield exactly one outbound
request; a stop action under a valid context is never suppressed by the
debounce. -/
theorem trigger_scrobble_debounce_spec :
    (∀ (s : PlayerState) (a : ScrobbleAction) (now : Int), a ≠ ScrobbleAction.stop →
      now - s.last_scrobble_time < 5 → trigger_scrobble s a now = (s, none)) ∧
    (∀ (s : PlayerState) (now : Int) (vid mt : String),
      s.current_video_id = some vid → s.current_meta_type = some mt →
      s.trakt_ok = true → (Trakt.parse_stremio_id vid).has_id = true →
      5 ≤ now - s.last_scrobble_time →
      (trigger_scrobble s ScrobbleAction.pause now).2.isSome = true ∧
        (trigger_scrobble (trigger_scrobble s ScrobbleAction.pause now).1
          ScrobbleAction.pause (now + 1)).2 = none) ∧
    (∀ (s : PlayerState) (now : Int) (vid mt : String),
      s.current_video_id = some vid → s.current_meta_type = some mt →
      s.trakt_ok = true → (Trakt.parse_stremio_id vid).has_id = true →
      (trigger_scrobble s ScrobbleAction.stop now).2.isSome = true) := by
  refine ⟨trigger_scrobble_debounced, ?_, ?_⟩
  · intro s now vid mt hv hm ht hid hge
    obtain ⟨req, heq, _⟩ :=
      trigger_scrobble_sends s ScrobbleAction.pause now vid mt hv hm ht hid (Or.inr hge)
    refine ⟨by rw [heq]; rfl, ?_⟩
    rw [heq]
    rw [trigger_scrobble_debounced _ _ _ (by decide)
      (by show now + 1 - now < 5; omega)]
  · intro s now vid mt hv hm ht hid
    obtain ⟨req, heq, _⟩ :=
      trigger_scrobble_sends s ScrobbleAction.stop now vid mt hv hm ht hid (Or.inl rfl)
    rw [heq]
    rfl

/-- C6 witness: concrete suppressed and non-suppressed calls. -/
theorem trigger_scrobble_debounce_spec_witness :
    trigger_scrobble { readyState with last_scrobble_time := 97 } ScrobbleAction.pause 100 =
      ({ readyState with last_scrobble_time := 97 }, none) ∧
      (trigger_scrobble readyState ScrobbleAction.pause 100).2.isSome = true ∧
      (trigger_scrobble (trigger_scrobble readyState ScrobbleAction.pause 100).1
        ScrobbleAction.pause 101).2 = none ∧
      (trigger_scrobble readyState ScrobbleAction.stop 100).2.isSome = true :=
  ⟨trigger_scrobble_debounce_spec.1 { readyState with last_scrobble_time := 97 }
      ScrobbleAction.pause 100 (by decide) (by decide),
   (trigger_scrobble_debounce_spec.2.1 readyState 100 "tt1:2:5" "series" rfl rfl rfl
      (by decide) (by decide)).1,
   (trigger_scrobble_debounce_spec.2.1 readyState 100 "tt1:2:5" "series" rfl rfl rfl
      (by decide) (by decide)).2,
   trigger_scrobble_debounce_spec.2.2 readyState 100 "tt1:2:5" "series" rfl rfl rfl
      (by decide)⟩

end Madari

namespace Trakt

theorem string_of_isEmpty {s : String} (h : s.isEmpty = true) : s = "" := by
  cases s with
  | mk data =>
    cases data with
    | nil => rfl
    | cons c cs =>
      exfalso
      simp [String.isEmpty, String.endPos, String.utf8ByteSize] at h
      have h2 := congrArg String.Pos.byteIdx h
      simp at h2
      have h3 := Char.utf8Size_pos c
      omega

theorem splitColon_cons_not_isEmpty (s : String) {first : String} {rest : List String}
    (h : splitColon s = first :: rest) : s.isEmpty = false := by
  cases he : s.isEmpty
  · rfl
  · rw [string_of_isEmpty he] at h
    have hnil : splitColon "" = [] := rfl
    rw [hnil] at h
    exact List.noConfusion h

theorem parse_stremio_id_cons (s first : String) (rest : List String)
    (h : splitColon s = first :: rest) :
    parse_stremio_id s =
      (if first.take 2 = "tt" then parseTTBranch first rest
       else if first = "tmdb" then parseNamespaceBranch rest (fun v => { tmdb := some v })
       else if first = "tvdb" then parseNamespaceBranch rest (fun v => { tvdb := some v })
       else if first = "kitsu" then parseNamespaceBranch rest (fun v => { kitsu := some v })
       else {}) := by
  have hne := splitColon_cons_not_isEmpty s h
  unfold parse_stremio_id
  rw [hne, h]
  simp

theorem mk_ne_empty {current : List Char} (hc : current.isEmpty = false) :
    String.mk current ≠ "" := by
  intro hcontra
  have hdata : current = [] := by simpa using congrArg String.data hcontra
  rw [hdata] at hc
  exact absurd hc (by decide)

theorem splitColonAux_no_empty (cs : List Char) :
    ∀ current : List Char, "" ∉ splitColonAux cs current := by
  induction cs with
  | nil =>
    intro current
    unfold splitColonAux
    cases hc : current.isEmpty
    · intro hmem
      exact mk_ne_empty hc (List.mem_singleton.mp (by simpa using hmem)).symm
    · simp
  | cons c rest ih =>
    intro current
    unfold splitColonAux
    by_cases hcolon : c = ':'
    · cases hc : current.isEmpty
      · rw [if_pos hcolon]
        intro hmem
        rcases List.mem_cons.mp (by simpa [hc] using hmem) with hhead | htail
        · exact mk_ne_empty hc hhead.symm
        · exact ih [] htail
      · rw [if_pos hcolon]
        intro hmem
        exact ih [] (by simpa [hc] using hmem)
    · rw [if_neg hcolon]
      exact ih (current ++ [c])

/-- C3: the identifier parser's format table.  Concrete canonical forms
map to exactly the structured result of the table; empty colon-separated
segments are never produced by the split; any input whose first segment is
unrecognized parses to the empty identifier with `has_id = false`. -/
theorem parse_stremio_id_formats :
    parse_stremio_id "tt1234567" = { imdb := some "tt1234567" } ∧
      parse_stremio_id "tt1234567:2:5" =
        { imdb := some "tt1234567", is_episode := true, season := 2, episode := 5 } ∧
      parse_stremio_id "tmdb:550" = { tmdb := some 550 } ∧
      parse_stremio_id "tmdb:550:1:1" =
        { tmdb := some 550, is_episode := true, season := 1, episode := 1 } ∧
      parse_stremio_id "tvdb:67890:1:2" =
        { tvdb := some 67890, is_episode := true, season := 1, episode := 2 } ∧
      parse_stremio_id "kitsu:123" = { kitsu := some 123 } ∧
      parse_stremio_id "bogus" = {} ∧ (parse_stremio_id "bogus").has_id = false ∧
      (∀ s : String, "" ∉ splitColon s) ∧
      (∀ (s first : String) (rest : List String), splitColon s = first :: rest →
        first.take 2 ≠ "tt" → first ≠ "tmdb" → first ≠ "tvdb" → first ≠ "kitsu" →
        parse_stremio_id s = {} ∧ (parse_stremio_id s).has_id = false) := by
  refine ⟨by decide, by decide, by decide, by decide, by decide, by decide, by decide,
    by decide, ?_, ?_⟩
  · intro s
    exact splitColonAux_no_empty s.data []
  · intro s first rest hsp h1 h2 h3 h4
    have heq : parse_stremio_id s = {} := by
      rw [parse_stremio_id_cons s first rest hsp, if_neg h1, if_neg h2, if_neg h3, if_neg h4]
    exact ⟨heq, by rw [heq]; rfl⟩

/-- C3 witness: an unrecognized first segment with further segments. -/
theorem parse_stremio_id_formats_witness :
    parse_stremio_id "imdb:550:1:1" = {} ∧
      (parse_stremio_id "imdb:550:1:1").has_id = false :=
  parse_stremio_id_formats.2.2.2.2.2.2.2.2.2 "imdb:550:1:1" "imdb" ["550", "1", "1"]
    (by decide) (by decide) (by decide) (by decide) (by decide)

end Trakt

namespace Trakt

open Madari

/-- C4 counterexample: at `"tt1234567:2:x"` the season segment parses and
the episode segment does not; the code leaves the already-assigned season
at 2, so season and episode are not "both left unset". -/
theorem parse_stremio_id_partial_counterexample :
    (parse_stremio_id "tt1234567:2:x").imdb = some "tt1234567" ∧
      (parse_stremio_id "tt1234567:2:x").is_episode = false ∧
      (parse_stremio_id "tt1234567:2:x").season = 2 ∧
      stoi "x" = none := by
  refine ⟨?_, ?_, ?_, ?_⟩ <;> decide

theorem parseNamespaceBranch_partial (p1 p2 p3 : String) (r : List String) (v : Int)
    (mk : Int → ContentIds) (hv : stoll p1 = some v)
    (hfail : stoi p2 = none ∨ stoi p3 = none) :
    (stoi p2 = none ∧ parseNamespaceBranch (p1 :: p2 :: p3 :: r) mk = mk v) ∨
      ∃ sv, stoi p2 = some sv ∧ stoi p3 = none ∧
        parseNamespaceBranch (p1 :: p2 :: p3 :: r) mk = { mk v with season := sv } := by
  simp only [parseNamespaceBranch, hv]
  cases hs1 : stoi p2 with
  | none =>
    left
    exact ⟨rfl, rfl⟩
  | some sv =>
    have hs2 : stoi p3 = none := by
      rcases hfail with ha | hb
      · rw [ha] at hs1
        exact Option.noConfusion hs1
      · exact hb
    right
    exact ⟨sv, rfl, hs2, by rw [hs2]⟩

/-- C4 amended: when the primary identifier segment is recognized but a
season or episode segment fails integer parsing, the primary ID is still
set and valid, `is_episode` stays false and `episode` stays unset; the
`season` field stays unset when the season segment itself fails, but keeps
the parsed value when only the episode segment fails. -/
theorem parse_stremio_id_episode_parse_failure :
    (∀ (s first p1 p2 : String) (r : List String),
      splitColon s = first :: p1 :: p2 :: r → first.take 2 = "tt" →
      (stoi p1 = none ∨ stoi p2 = none) →
      (parse_stremio_id s).imdb = some first ∧
        (parse_stremio_id s).has_id = true ∧
        (parse_stremio_id s).is_episode = false ∧
        (parse_stremio_id s).episode = 0 ∧
        (stoi p1 = none → (parse_stremio_id s).season = 0)) ∧
    (∀ (s first p1 p2 p3 : String) (r : List String) (v : Int),
      splitColon s = first :: p1 :: p2 :: p3 :: r →
      first = "tmdb" ∨ first = "tvdb" ∨ first = "kitsu" →
      stoll p1 = some v → (stoi p2 = none ∨ stoi p3 = none) →
      (parse_stremio_id s).has_id = true ∧
        (parse_stremio_id s).is_episode = false ∧
        (parse_stremio_id s).episode = 0 ∧
        (stoi p2 = none → (parse_stremio_id s).season = 0) ∧
        (first = "tmdb" → (parse_stremio_id s).tmdb = some v) ∧
        (first = "tvdb" → (parse_stremio_id s).tvdb = some v) ∧
        (first = "kitsu" → (parse_stremio_id s).kitsu = some v)) := by
  constructor
  · intro s first p1 p2 r hsp htt hfail
    rw [parse_stremio_id_cons s first (p1 :: p2 :: r) hsp, if_pos htt]
    cases hs1 : stoi p1 with
    | none =>
      refine ⟨?_, ?_, ?_, ?_, fun _ => ?_⟩ <;>
        simp [parseTTBranch, hs1, ContentIds.has_id]
    | some sv =>
      have hs2 : stoi p2 = none := by
        rcases hfail with ha | hb
        · rw [ha] at hs1
          exact Option.noConfusion hs1
        · exact hb
      refine ⟨?_, ?_, ?_, ?_, fun hq => ?_⟩
      · simp [parseTTBranch, hs1, hs2]
      · simp [parseTTBranch, hs1, hs2, ContentIds.has_id]
      · simp [parseTTBranch, hs1, hs2]
      · simp [parseTTBranch, hs1, hs2]
      · simp [hs1] at hq
  · intro s first p1 p2 p3 r v hsp hns hv hfail
    have hval := parseNamespaceBranch_partial p1 p2 p3 r v
    rcases hns with hf | hf | hf <;> subst hf
    · rw [parse_stremio_id_cons s "tmdb" (p1 :: p2 :: p3 :: r) hsp,
        if_neg (by decide), if_pos rfl]
      rcases hval (fun v => { tmdb := some v }) hv hfail with ⟨hs1, heq⟩ | ⟨sv, hs1, hs2, heq⟩
      · rw [heq]
        exact ⟨rfl, rfl, rfl, fun _ => rfl, fun _ => rfl,
          fun h => absurd h (by decide), fun h => absurd h (by decide)⟩
      · rw [heq]
        refine ⟨rfl, rfl, rfl, fun hq => ?_, fun _ => rfl,
          fun h => absurd h (by decide), fun h => absurd h (by decide)⟩
        rw [hq] at hs1
        exact Option.noConfusion hs1
    · rw [parse_stremio_id_cons s "tvdb" (p1 :: p2 :: p3 :: r) hsp,
        if_neg (by decide), if_neg (by decide), if_pos rfl]
      rcases hval (fun v => { tvdb := some v }) hv hfail with ⟨hs1, heq⟩ | ⟨sv, hs1, hs2, heq⟩
      · rw [heq]
        exact ⟨rfl, rfl, rfl, fun _ => rfl, fun h => absurd h (by decide),
          fun _ => rfl, fun h => absurd h (by decide)⟩
      · rw [heq]
        refine ⟨rfl, rfl, rfl, fun hq => ?_, fun h => absurd h (by decide),
          fun _ => rfl, fun h => absurd h (by decide)⟩
        rw [hq] at hs1
        exact Option.noConfusion hs1
    · rw [parse_stremio_id_cons s "kitsu" (p1 :: p2 :: p3 :: r) hsp,
        if_neg (by decide), if_neg (by decide), if_neg (by decide), if_pos rfl]
      rcases hval (fun v => { kitsu := some v }) hv hfail with ⟨hs1, heq⟩ | ⟨sv, hs1, hs2, heq⟩
      · rw [heq]
        exact ⟨rfl, rfl, rfl, fun _ => rfl, fun h => absurd h (by decide),
          fun h => absurd h (by decide), fun _ => rfl⟩
      · rw [heq]
        refine ⟨rfl, rfl, rfl, fun hq => ?_, fun h => absurd h (by decide),
          fun h => absurd h (by decide), fun _ => rfl⟩
        rw [hq] at hs1
        exact Option.noConfusion hs1

/-- C4 amended witness: the season parses, the episode segment does not. -/
theorem parse_stremio_id_episode_parse_failure_witness :
    (parse_stremio_id "tt1234567:2:x").imdb = some "tt1234567" ∧
      (parse_stremio_id "tt1234567:2:x").has_id = true ∧
      (parse_stremio_id "tt1234567:2:x").is_episode = false ∧
      (parse_stremio_id "tt1234567:2:x").episode = 0 ∧
      (stoi "2" = none → (parse_stremio_id "tt1234567:2:x").season = 0) :=
  parse_stremio_id_episode_parse_failure.1 "tt1234567:2:x" "tt1234567" "2" "x" []
    (by decide) (by decide) (Or.inr (by decide))

end Trakt

namespace Madari

theorem set_eraseIdx {α : Type} (l : List α) (i : Nat) (x : α) :
    (l.set i x).eraseIdx i = l.eraseIdx i := by
  induction l generalizing i with
  | nil => rfl
  | cons a t ih =>
    cases i with
    | zero => rfl
    | succ j => simp [List.set, List.eraseIdx, ih]

theorem find_entry_index_lt {h : List WatchHistoryEntry} {mid vid : String} {idx : Nat}
    (hf : find_entry_index h mid vid = some idx) : idx < h.length := by
  have := List.findIdx?_eq_some_iff_findIdx_eq.mp hf
  exact this.1

/-- C7: `update_progress` as an upsert.  For an absent `(metaId,
videoId)` key the updated entry goes to the front and the store is the
500-entry truncation of the grown list (so the size grows by one, capped
at 500, with the back — the oldest — evicted); for a present key the
entry at the found index is replaced, moved to the front, and the size is
unchanged. -/
theorem update_progress_spec :
    (∀ (h : List WatchHistoryEntry) (e : WatchHistoryEntry) (now : Int),
      find_entry_index h e.meta_id e.video_id = none →
      update_progress h e now = ({ e with last_watched := now } :: h).take 500 ∧
        (update_progress h e now).head? = some { e with last_watched := now } ∧
        (update_progress h e now).length = min (h.length + 1) 500) ∧
    (∀ (h : List WatchHistoryEntry) (e : WatchHistoryEntry) (now : Int) (idx : Nat),
      find_entry_index h e.meta_id e.video_id = some idx →
      update_progress h e now = { e with last_watched := now } :: h.eraseIdx idx ∧
        (update_progress h e now).length = h.length) := by
  constructor
  · intro h e now hfind
    have hup : update_progress h e now =
        (if 500 < ({ e with last_watched := now } :: h).length
         then ({ e with last_watched := now } :: h).take 500
         else { e with last_watched := now } :: h) := by
      unfold update_progress
      rw [hfind]
    by_cases hlen : 500 < ({ e with last_watched := now } :: h).length
    · rw [if_pos hlen] at hup
      refine ⟨hup, ?_, ?_⟩
      · rw [hup]
        rfl
      · rw [hup, List.length_take]
        simp only [List.length_cons] at hlen ⊢
        omega
    · rw [if_neg hlen] at hup
      refine ⟨?_, ?_, ?_⟩
      · rw [hup, List.take_of_length_le (by omega)]
      · rw [hup]
        rfl
      · rw [hup]
        simp only [List.length_cons] at hlen ⊢
        omega
  · intro h e now idx hfind
    have hlt := find_entry_index_lt hfind
    have hup : update_progress h e now =
        (if 0 < idx
         then { e with last_watched := now } ::
           (h.set idx { e with last_watched := now }).eraseIdx idx
         else h.set idx { e with last_watched := now }) := by
      unfold update_progress
      rw [hfind]
    by_cases hi : 0 < idx
    · rw [if_pos hi, set_eraseIdx] at hup
      refine ⟨hup, ?_⟩
      rw [hup]
      simp only [List.length_cons, List.length_eraseIdx, if_pos hlt]
      omega
    · have hidx : idx = 0 := by omega
      subst hidx
      cases h with
      | nil => simp at hlt
      | cons a t =>
        rw [if_neg hi] at hup
        refine ⟨hup, ?_⟩
        rw [hup]
        rfl

/-- C7 witness: an insert with an absent key and an upsert with a present
key, on a one-entry store. -/
theorem update_progress_spec_witness :
    update_progress [midEntry] midEntry2 9 =
        ({ midEntry2 with last_watched := 9 } :: [midEntry]).take 500 ∧
      (update_progress [midEntry] midEntry2 9).length = min 2 500 ∧
      update_progress [midEntry] { midEntry with position := 60 } 9 =
        { midEntry with position := 60, last_watched := 9 } :: [midEntry].eraseIdx 0 ∧
      (update_progress [midEntry] { midEntry with position := 60 } 9).length = 1 :=
  ⟨(update_progress_spec.1 [midEntry] midEntry2 9 (by decide)).1,
   (update_progress_spec.1 [midEntry] midEntry2 9 (by decide)).2.2,
   (update_progress_spec.2 [midEntry] { midEntry with position := 60 } 9 0 (by decide)).1,
   (update_progress_spec.2 [midEntry] { midEntry with position := 60 } 9 0 (by decide)).2⟩

end Madari

namespace Stremio

theorem resourceLoop_countP_zero (resource ty id : String) (m : Manifest)
    (l : List ResourceDefinition) (t i : Bool)
    (h : l.countP (fun r => r.name == resource) = 0) :
    resourceLoop resource ty id m l t i = false := by
  induction l generalizing t i with
  | nil => rfl
  | cons res rest ih =>
    rw [List.countP_cons] at h
    have hname : (res.name == resource) = false := by
      cases hq : (res.name == resource)
      · rfl
      · rw [hq] at h
        simp at h
    have hne : res.name ≠ resource := by
      intro hcontra
      rw [hcontra] at hname
      simp at hname
    rw [resourceLoop, if_pos hne]
    apply ih
    rw [hname] at h
    simpa using h

end Stremio

namespace Stremio

theorem idMatchUpdate_init (m : Manifest) (res : ResourceDefinition) (id : String) :
    idMatchUpdate m res id (m.id_prefixes.isEmpty || id.isEmpty) = specIdMatch m res id := by
  unfold idMatchUpdate specIdMatch
  by_cases hid : id.isEmpty
  · simp [hid]
  · rw [if_neg hid, if_neg hid]
    by_cases h1 : res.id_prefixes.isEmpty
    · by_cases h2 : m.id_prefixes.isEmpty
      · simp [h1, h2, hid]
      · simp [h1, h2]
    · simp [h1]

theorem resourceLoop_cons_named (resource ty id : String) (m : Manifest)
    (res : ResourceDefinition) (rest : List ResourceDefinition) (t i : Bool)
    (hne : res.name = resource) :
    resourceLoop resource ty id m (res :: rest) t i =
      if specTypeMatch m res ty && idMatchUpdate m res id i then true
      else resourceLoop resource ty id m rest (specTypeMatch m res ty)
        (idMatchUpdate m res id i) := by
  rw [resourceLoop, if_neg (by simp [hne])]
  rfl

theorem resourceLoop_eq_any (resource ty id : String) (m : Manifest) :
    ∀ (l : List ResourceDefinition) (t : Bool),
      l.countP (fun r => r.name == resource) ≤ 1 →
      resourceLoop resource ty id m l t (m.id_prefixes.isEmpty || id.isEmpty) =
        l.any (fun res => res.name == resource && specTypeMatch m res ty &&
          specIdMatch m res id) := by
  intro l
  induction l with
  | nil =>
    intro t _
    rfl
  | cons res rest ih =>
    intro t hdup
    by_cases hne : res.name = resource
    · rw [resourceLoop_cons_named resource ty id m res rest t _ hne, idMatchUpdate_init]
      have hb : (res.name == resource) = true := by simp [hne]
      have hrest : rest.countP (fun r => r.name == resource) = 0 := by
        rw [List.countP_cons, hb, if_pos rfl] at hdup
        omega
      by_cases hm : (specTypeMatch m res ty && specIdMatch m res id) = true
      · rw [if_pos hm, List.any_cons]
        simp only [Bool.and_eq_true] at hm
        simp [hb, hm.1, hm.2]
      · rw [if_neg hm,
          resourceLoop_countP_zero resource ty id m rest _ _ hrest, List.any_cons]
        have hanyrest : rest.any (fun r => r.name == resource &&
            specTypeMatch m r ty && specIdMatch m r id) = false := by
          rw [List.any_eq_false]
          intro x hx
          have hxname := List.countP_eq_zero.mp hrest x hx
          intro hcontra
          simp only [Bool.and_eq_true] at hcontra
          exact hxname hcontra.1.1
        have hmf : (specTypeMatch m res ty && specIdMatch m res id) = false := by
          cases hq : (specTypeMatch m res ty && specIdMatch m res id)
          · rfl
          · exact absurd hq hm
        simp [hb, hmf, hanyrest]
    · have hb : (res.name == resource) = false := by simp [hne]
      rw [resourceLoop, if_pos hne]
      have hdup2 : rest.countP (fun r => r.name == resource) ≤ 1 := by
        rw [List.countP_cons, hb] at hdup
        simp only [Bool.false_eq_true, if_false] at hdup
        omega
      rw [ih t hdup2, List.any_cons]
      simp [hb]

end Stremio

namespace Stremio

/-- C1 counterexample: a manifest declaring `stream` twice — first with a
non-matching prefix list, then with none — is eligible under the spec's
per-resource-definition rule (the second definition is a double wildcard),
but the code's `id_matches` flag carries the first definition's failure
into the second, so the provider is not returned. -/
theorem get_addons_for_resource_counterexample :
    Madari.dupAddon.enabled = true ∧
      specEligible Madari.dupAddon "stream" "movie" "tt1" = true ∧
      get_addons_for_resource [Madari.dupAddon] "stream" "movie" "tt1" = [] := by
  refine ⟨rfl, ?_, ?_⟩ <;> decide

/-- C1 amended: for a provider whose manifest declares at most one
resource definition with the requested name, membership in
`get_addons_for_resource` coincides exactly with the spec's three-step
rule (enabled, a resource definition of that name, type-match and
identifier-match with the empty-list-wildcard defaults).  With duplicate
definitions of the same name the identifier-match flag carries over
between them when both prefix lists are empty, as the counterexample
shows. -/
theorem get_addons_for_resource_mem_iff (addons : List InstalledAddon)
    (a : InstalledAddon) (resource ty id : String)
    (hdup : a.manifest.resources.countP (fun r => r.name == resource) ≤ 1)
    (hmem : a ∈ addons) :
    a ∈ get_addons_for_resource addons resource ty id ↔
      specEligible a resource ty id = true := by
  unfold get_addons_for_resource
  rw [List.mem_filter]
  unfold addonMatches specEligible
  rw [resourceLoop_eq_any resource ty id a.manifest a.manifest.resources
    a.manifest.types.isEmpty hdup]
  simp [hmem]

/-- C1 amended witness: a single-definition manifest, where membership and
the spec rule agree (and both hold). -/
theorem get_addons_for_resource_mem_iff_witness :
    (Madari.plainAddon ∈
        get_addons_for_resource [Madari.plainAddon] "stream" "movie" "tt1" ↔
      specEligible Madari.plainAddon "stream" "movie" "tt1" = true) ∧
      specEligible Madari.plainAddon "stream" "movie" "tt1" = true :=
  ⟨get_addons_for_resource_mem_iff [Madari.plainAddon] Madari.plainAddon
      "stream" "movie" "tt1" (by decide) (List.mem_singleton.mpr rfl),
   by decide⟩

end Stremio

namespace Madari

open Trakt

theorem insertByLastWatched_perm (e : WatchHistoryEntry) (l : List WatchHistoryEntry) :
    List.Perm (insertByLastWatched e l) (e :: l) := by
  induction l with
  | nil => exact List.Perm.refl _
  | cons x xs ih =>
    rw [insertByLastWatched]
    by_cases hc : x.last_watched < e.last_watched
    · rw [if_pos hc]
    · rw [if_neg hc]
      exact (ih.cons x).trans (List.Perm.swap e x xs)

theorem sortByLastWatchedDesc_perm (l : List WatchHistoryEntry) :
    List.Perm (sortByLastWatchedDesc l) l := by
  induction l with
  | nil => exact List.Perm.refl _
  | cons e rest ih =>
    exact (insertByLastWatched_perm e (sortByLastWatchedDesc rest)).trans (ih.cons e)

theorem insertByLastWatched_pairwise (e : WatchHistoryEntry)
    (l : List WatchHistoryEntry)
    (h : l.Pairwise (fun a b => b.last_watched ≤ a.last_watched)) :
    (insertByLastWatched e l).Pairwise (fun a b => b.last_watched ≤ a.last_watched) := by
  induction l with
  | nil => simp [insertByLastWatched]
  | cons x xs ih =>
    rw [insertByLastWatched]
    rcases List.pairwise_cons.mp h with ⟨hx, hxs⟩
    by_cases hc : x.last_watched < e.last_watched
    · rw [if_pos hc]
      refine List.pairwise_cons.mpr ⟨?_, h⟩
      intro b hb
      rcases List.mem_cons.mp hb with hbx | hbxs
      · rw [hbx]
        exact le_of_lt hc
      · exact le_trans (hx b hbxs) (le_of_lt hc)
    · rw [if_neg hc]
      refine List.pairwise_cons.mpr ⟨?_, ih hxs⟩
      intro b hb
      have hb2 := (insertByLastWatched_perm e xs).mem_iff.mp hb
      rcases List.mem_cons.mp hb2 with hbe | hbxs
      · rw [hbe]
        exact le_of_not_lt hc
      · exact hx b hbxs

theorem sortByLastWatchedDesc_pairwise (l : List WatchHistoryEntry) :
    (sortByLastWatchedDesc l).Pairwise (fun a b => b.last_watched ≤ a.last_watched) := by
  induction l with
  | nil => simp [sortByLastWatchedDesc]
  | cons e rest ih => exact insertByLastWatched_pairwise e (sortByLastWatchedDesc rest) ih

theorem mergeRemote_subset {x : WatchHistoryEntry} (l : List WatchHistoryEntry) :
    ∀ ex : List String, x ∈ mergeRemote ex l → x ∈ l := by
  induction l with
  | nil =>
    intro ex hx
    exact absurd hx (by simp [mergeRemote])
  | cons e rest ih =>
    intro ex hx
    rw [mergeRemote] at hx
    by_cases hc : ex.contains e.video_id
    · rw [if_pos hc] at hx
      exact List.mem_cons_of_mem e (ih ex hx)
    · rw [if_neg hc] at hx
      rcases List.mem_cons.mp hx with hxe | hxrest
      · rw [hxe]
        exact List.mem_cons_self e rest
      · exact List.mem_cons_of_mem e (ih (e.video_id :: ex) hxrest)

theorem mergeRemote_ids (l : List WatchHistoryEntry) :
    ∀ ex : List String,
      ((mergeRemote ex l).map (fun e => e.video_id)).Nodup ∧
        ∀ y ∈ (mergeRemote ex l).map (fun e => e.video_id), y ∉ ex := by
  induction l with
  | nil =>
    intro ex
    constructor
    · simp [mergeRemote]
    · intro y hy
      exact absurd hy (by simp [mergeRemote])
  | cons e rest ih =>
    intro ex
    rw [mergeRemote]
    by_cases hc : ex.contains e.video_id
    · rw [if_pos hc]
      exact ih ex
    · rw [if_neg hc]
      obtain ⟨ihnd, ihout⟩ := ih (e.video_id :: ex)
      have hnotin : e.video_id ∉ ex := by
        intro hmem
        rw [show (ex.contains e.video_id) = true by simpa using hmem] at hc
        exact hc rfl
      constructor
      · rw [List.map_cons]
        refine List.nodup_cons.mpr ⟨?_, ihnd⟩
        intro hmem
        exact (ihout e.video_id hmem) (List.mem_cons_self _ _)
      · intro y hy
        rw [List.map_cons] at hy
        rcases List.mem_cons.mp hy with hye | hyrest
        · rw [hye]
          exact hnotin
        · intro hyex
          exact (ihout y hyrest) (List.mem_cons_of_mem _ hyex)

end Madari

namespace Madari

open Trakt

theorem merge_core_spec (local_items rl : List WatchHistoryEntry)
    (hnd : (local_items.map (fun e => e.video_id)).Nodup)
    (hrl_nd : (rl.map (fun e => e.video_id)).Nodup)
    (hdisj : ∀ y ∈ rl.map (fun e => e.video_id),
      y ∉ local_items.map (fun e => e.video_id)) :
    (((sortByLastWatchedDesc (local_items ++ rl)).take 15).map
        (fun e => e.video_id)).Nodup ∧
      ((sortByLastWatchedDesc (local_items ++ rl)).take 15).Pairwise
        (fun a b => b.last_watched ≤ a.last_watched) ∧
      ∀ e ∈ (sortByLastWatchedDesc (local_items ++ rl)).take 15,
        e ∈ local_items ∨ e ∈ rl := by
  have hperm := sortByLastWatchedDesc_perm (local_items ++ rl)
  have hmerged_nd : ((local_items ++ rl).map (fun e => e.video_id)).Nodup := by
    rw [List.map_append]
    refine List.nodup_append.mpr ⟨hnd, hrl_nd, ?_⟩
    intro y hy1 hy2
    exact (hdisj y hy2) hy1
  have hsort_nd :
      ((sortByLastWatchedDesc (local_items ++ rl)).map (fun e => e.video_id)).Nodup :=
    ((hperm.map (fun e => e.video_id)).symm).nodup hmerged_nd
  refine ⟨?_, ?_, ?_⟩
  · rw [List.map_take]
    exact hsort_nd.sublist (List.take_sublist _ _)
  · exact (sortByLastWatchedDesc_pairwise _).sublist (List.take_sublist _ _)
  · intro e he
    have he2 : e ∈ sortByLastWatchedDesc (local_items ++ rl) :=
      (List.take_sublist _ _).subset he
    exact List.mem_append.mp (hperm.mem_iff.mp he2)

/-- C9 counterexample: two resumable local entries that share a
`video_id` under different `meta_id`s pass through the merge untouched,
so the merged output contains the `video_id` twice — the merge
deduplicates remote records against the list, but never the local
entries against each other. -/
theorem continue_watching_merge_counterexample :
    midEntry.is_resumable = true ∧ midEntry2.is_resumable = true ∧
      midEntry.video_id = midEntry2.video_id ∧
      (continue_watching_merge [midEntry, midEntry2] (some []) (fun _ => 0) 0).map
        (fun e => e.video_id) = ["tt1", "tt1"] ∧
      ¬ ((continue_watching_merge [midEntry, midEntry2] (some []) (fun _ => 0) 0).map
        (fun e => e.video_id)).Nodup := by
  refine ⟨?_, ?_, by decide, by decide, by decide⟩
  · norm_num [WatchHistoryEntry.is_resumable, WatchHistoryEntry.is_finished,
      WatchHistoryEntry.get_progress, midEntry, min_def]
  · norm_num [WatchHistoryEntry.is_resumable, WatchHistoryEntry.is_finished,
      WatchHistoryEntry.get_progress, midEntry2, min_def]

/-- C9 amended: when the local entries have pairwise-distinct derived
`videoId`s, the merged output never contains two entries with the same
`videoId` (remote records whose `videoId` already occurs are excluded,
also against each other), is sorted by `lastWatched` descending, and
every output entry is either a local entry or a converted remote record;
without that proviso duplicate local `videoId`s pass through. -/
theorem continue_watching_merge_spec (local_items : List WatchHistoryEntry)
    (remote : Option (List PlaybackProgress)) (timeParse : String → Int) (now : Int)
    (hnd : (local_items.map (fun e => e.video_id)).Nodup) :
    ((continue_watching_merge local_items remote timeParse now).map
        (fun e => e.video_id)).Nodup ∧
      (continue_watching_merge local_items remote timeParse now).Pairwise
        (fun a b => b.last_watched ≤ a.last_watched) ∧
      ∀ e ∈ continue_watching_merge local_items remote timeParse now,
        e ∈ local_items ∨
          ∃ p ∈ remote.getD [], trakt_playback_to_entry timeParse now p = e := by
  rcases remote with _ | pbs
  · have h := merge_core_spec local_items [] hnd (by simp) (by simp)
    refine ⟨h.1, h.2.1, ?_⟩
    intro e he
    rcases h.2.2 e he with h1 | h2
    · exact Or.inl h1
    · exact absurd h2 (by simp)
  · obtain ⟨hrl_nd, hrl_out⟩ :=
      mergeRemote_ids (pbs.map (trakt_playback_to_entry timeParse now))
        (local_items.map (fun e => e.video_id))
    have h := merge_core_spec local_items
      (mergeRemote (local_items.map (fun e => e.video_id))
        (pbs.map (trakt_playback_to_entry timeParse now))) hnd hrl_nd hrl_out
    refine ⟨h.1, h.2.1, ?_⟩
    intro e he
    rcases h.2.2 e he with h1 | h2
    · exact Or.inl h1
    · right
      have hmem := mergeRemote_subset (pbs.map (trakt_playback_to_entry timeParse now))
        (local_items.map (fun e => e.video_id)) h2
      rcases List.mem_map.mp hmem with ⟨p, hp, hpe⟩
      exact ⟨p, hp, hpe⟩

/-- C9 amended witness: a distinct-id local entry merged with one remote
movie record. -/
theorem continue_watching_merge_spec_witness :
    ((continue_watching_merge [midEntry] (some [remoteMovie]) (fun _ => 0) 7).map
        (fun e => e.video_id)).Nodup ∧
      (continue_watching_merge [midEntry] (some [remoteMovie]) (fun _ => 0) 7).Pairwise
        (fun a b => b.last_watched ≤ a.last_watched) :=
  ⟨(continue_watching_merge_spec [midEntry] (some [remoteMovie]) (fun _ => 0) 7
      (by decide)).1,
   (continue_watching_merge_spec [midEntry] (some [remoteMovie]) (fun _ => 0) 7
      (by decide)).2.1⟩

end Madari
